import Mathlib

/-!
Verification of the affinity-table construction core of the repository
(`affinity.py`, reference score functions in `affinity_test.py`).

The embedding is shallow: Python dicts become `PMap` (a finite key set
plus a value function), the `defaultdict(set)` character-relation table
is accessed through `crGet` (empty set off the key set), weight lookups
that can raise `KeyError` become `Option`-valued sums (`sumPoints`), and
the whole score computation `compute_affinity_scores` returns `none`
exactly when the Python run would abort with a `KeyError`.
-/

/-- A Python dict with natural-number keys: a finite key set together
with a value function (only its restriction to `keys` is meaningful). -/
structure PMap (β : Type) where
  keys : Finset ℕ
  val : ℕ → β

namespace PMap

/-- Lookup `m[k]` modelling Python's `dict.__getitem__` result as an
`Option`: `none` models the `KeyError` path. -/
def get? {β : Type} (m : PMap β) (k : ℕ) : Option β :=
  if k ∈ m.keys then some (m.val k) else none

/-- Python dict equality (`==` / `!=`): same key set and equal values on
every key. -/
def eqv {β : Type} [DecidableEq β] (p q : PMap β) : Prop :=
  p.keys = q.keys ∧ ∀ k ∈ p.keys, p.val k = q.val k

instance {β : Type} [DecidableEq β] (p q : PMap β) : Decidable (p.eqv q) := by
  unfold eqv
  infer_instance

end PMap

/-- Access `chara_rel[a]` where `chara_rel` is a `defaultdict(set)`: accessing a
missing character id yields the empty set instead of an error. -/
def crGet (cr : PMap (Finset ℕ)) (a : ℕ) : Finset ℕ :=
  (cr.get? a).getD ∅

/-- The sum `sum(rel_points[rt] for rt in s)`: `some` of the sum of weights when
every relation type in `s` has a weight, `none` (the `KeyError` path)
when some weight is missing. -/
def sumPoints (rp : PMap ℤ) (s : Finset ℕ) : Option ℤ :=
  if ∀ rt ∈ s, (rp.get? rt).isSome then some (∑ rt ∈ s, (rp.get? rt).getD 0)
  else none

/-- The entry stored in the `aff2` dict of `compute_affinity_scores` at
key `(a, b)`: present only for distinct characters of the working set
whose category intersection is nonempty and whose score is nonzero
(`none` also covers the abort path, which is tracked globally by
`computeAborts`). -/
def aff2Entry (rp : PMap ℤ) (cr : PMap (Finset ℕ)) (a b : ℕ) : Option ℤ :=
  if a ∈ cr.keys ∧ b ∈ cr.keys ∧ a ≠ b ∧ (crGet cr a ∩ crGet cr b).Nonempty then
    match sumPoints rp (crGet cr a ∩ crGet cr b) with
    | none => none
    | some score => if score ≠ 0 then some score else none
  else none

/-- The entry stored in the `aff3` dict of `compute_affinity_scores` at
key `(a, b, c)`: present for characters of the working set with `a ≠ b`,
nonempty `a`–`b` category intersection and `c ≠ b`; the stored score is
`0` when `a = c` and otherwise the weight sum over the three-way
intersection. -/
def aff3Entry (rp : PMap ℤ) (cr : PMap (Finset ℕ)) (a b c : ℕ) : Option ℤ :=
  if a ∈ cr.keys ∧ b ∈ cr.keys ∧ c ∈ cr.keys ∧ a ≠ b ∧
      (crGet cr a ∩ crGet cr b).Nonempty ∧ c ≠ b then
    if a = c then some 0
    else sumPoints rp ((crGet cr a ∩ crGet cr b) ∩ crGet cr c)
  else none

/-- Lookup `aff2.get((a, b), 0)`: dict access with default `0`. -/
def aff2Lookup (rp : PMap ℤ) (cr : PMap (Finset ℕ)) (a b : ℕ) : ℤ :=
  (aff2Entry rp cr a b).getD 0

/-- Lookup `aff3.get((a, b, c), 0)`: dict access with default `0`. -/
def aff3Lookup (rp : PMap ℤ) (cr : PMap (Finset ℕ)) (a b c : ℕ) : ℤ :=
  (aff3Entry rp cr a b c).getD 0

/-- One slot of the dense `affinity_scores` array for candidate id
`cand`: hard `0` when `cand` is not a key of `chara_rel` or equals
`main`, otherwise the sum of the three cached lookups. -/
def slotScore (rp : PMap ℤ) (cr : PMap (Finset ℕ)) (m l r cand : ℕ) : ℤ :=
  if cand ∉ cr.keys ∨ cand = m then 0
  else aff2Lookup rp cr cand m + aff3Lookup rp cr cand m l + aff3Lookup rp cr cand m r

/-- The per-triple record produced by `compute_affinity_scores`. -/
structure AffinityEntry where
  affinity_scores : List ℤ
  base_affinity : ℤ
deriving DecidableEq

/-- The `AffinityEntry` built for triple `(m, l, r)`: the dense array
runs over candidate ids `1001, …, maxId` (`range(1001, max_char_id + 1)`)
and `base_affinity` is `aff2.get((m,l),0) + aff3.get((m,l,r),0)`. -/
def buildEntry (rp : PMap ℤ) (cr : PMap (Finset ℕ)) (maxId m l r : ℕ) : AffinityEntry :=
  { affinity_scores :=
      (List.range (maxId + 1 - 1001)).map (fun i => slotScore rp cr m l r (1001 + i)),
    base_affinity := aff2Lookup rp cr m l + aff3Lookup rp cr m l r }

/-- The result dict of `compute_affinity_scores` viewed as a function:
a key `(m, l, r)` is present exactly when all three ids are in the
working set and satisfy the distinctness constraints of the three
nested loops. -/
def buildResult (rp : PMap ℤ) (cr : PMap (Finset ℕ)) (maxId : ℕ) :
    ℕ × ℕ × ℕ → Option AffinityEntry :=
  fun t =>
    match t with
    | (m, l, r) =>
      if m ∈ cr.keys ∧ l ∈ cr.keys ∧ r ∈ cr.keys ∧ l ≠ m ∧ r ≠ m ∧ r ≠ l then
        some (buildEntry rp cr maxId m l r)
      else none

/-- A `KeyError` in the `aff2`-building phase: two distinct characters
of the working set share a category whose weight sum fails. -/
def pairPhaseError (rp : PMap ℤ) (cr : PMap (Finset ℕ)) : Prop :=
  ∃ a ∈ cr.keys, ∃ b ∈ cr.keys, a ≠ b ∧ (crGet cr a ∩ crGet cr b).Nonempty ∧
    sumPoints rp (crGet cr a ∩ crGet cr b) = none

/-- A `KeyError` in the `aff3`-building phase: a summed three-way
intersection contains a category with no weight. -/
def triplePhaseError (rp : PMap ℤ) (cr : PMap (Finset ℕ)) : Prop :=
  ∃ a ∈ cr.keys, ∃ b ∈ cr.keys, ∃ c ∈ cr.keys, a ≠ b ∧
    (crGet cr a ∩ crGet cr b).Nonempty ∧ c ≠ b ∧ a ≠ c ∧
    sumPoints rp ((crGet cr a ∩ crGet cr b) ∩ crGet cr c) = none

/-- The run of `compute_affinity_scores` aborts with a `KeyError` in one
of its two cache-building phases. -/
def computeAborts (rp : PMap ℤ) (cr : PMap (Finset ℕ)) : Prop :=
  pairPhaseError rp cr ∨ triplePhaseError rp cr

instance (rp : PMap ℤ) (cr : PMap (Finset ℕ)) : Decidable (pairPhaseError rp cr) := by
  unfold pairPhaseError
  infer_instance

instance (rp : PMap ℤ) (cr : PMap (Finset ℕ)) : Decidable (triplePhaseError rp cr) := by
  unfold triplePhaseError
  infer_instance

instance (rp : PMap ℤ) (cr : PMap (Finset ℕ)) : Decidable (computeAborts rp cr) := by
  unfold computeAborts
  infer_instance

/-- The function `compute_affinity_scores(rel_points, chara_rel, max_char_id)`:
`none` when the run aborts with a `KeyError`, otherwise the full triple
table. -/
def compute_affinity_scores (rp : PMap ℤ) (cr : PMap (Finset ℕ)) (maxId : ℕ) :
    Option (ℕ × ℕ × ℕ → Option AffinityEntry) :=
  if computeAborts rp cr then none else some (buildResult rp cr maxId)

/-- Function `get_aff2` of `affinity_test.py`: the direct from-category-sets
pairwise score (through the `defaultdict`, so absent ids act as having
no categories); `none` models the `KeyError` path of its weight sum. -/
def get_aff2 (rp : PMap ℤ) (cr : PMap (Finset ℕ)) (a b : ℕ) : Option ℤ :=
  if a = b then some 0
  else if (crGet cr a ∩ crGet cr b).Nonempty then
    sumPoints rp (crGet cr a ∩ crGet cr b)
  else some 0

/-- Function `get_aff3` of `affinity_test.py`: the direct triple score; `0` when
`a = b`, `0` on an empty `a`–`b` intersection, and `0` forced when
`a = c` after the intersection is formed. -/
def get_aff3 (rp : PMap ℤ) (cr : PMap (Finset ℕ)) (a b c : ℕ) : Option ℤ :=
  if a = b then some 0
  else if (crGet cr a ∩ crGet cr b).Nonempty then
    if a = c then some 0
    else sumPoints rp ((crGet cr a ∩ crGet cr b) ∩ crGet cr c)
  else some 0

/-- Addition of two optional scores, propagating the error path. -/
def oadd : Option ℤ → Option ℤ → Option ℤ
  | some x, some y => some (x + y)
  | _, _ => none

/-- The function `check_for_data_changes(current_rel_points, current_chara_rel)`:
the previous snapshot is `none` when `data/affinity_definitions.json` is
missing or fails to parse (the bare `except` returns `False`); otherwise
the detector reports a change when the weight dict differs, or some
character of the snapshot is absent now or has a different relation
set. -/
def check_for_data_changes (curRp : PMap ℤ) (curCr : PMap (Finset ℕ))
    (snapshot : Option (PMap ℤ × PMap (Finset ℕ))) : Bool :=
  match snapshot with
  | none => false
  | some (prevRp, prevCr) =>
    if PMap.eqv prevRp curRp then
      decide (∃ cid ∈ prevCr.keys, cid ∉ curCr.keys ∨ prevCr.val cid ≠ curCr.val cid)
    else true

/-- The recompute decision taken by `main`: skip everything, emit a full
initialization (index statements for every character of the working set
plus the default index), or emit an incremental migration carrying the
new-id range and the index statements actually written. -/
inductive PlanDecision where
  | noop : PlanDecision
  | full : List ℕ → PlanDecision
  | incremental : List ℕ → List ℕ → PlanDecision
deriving DecidableEq

/-- The list `sorted(chara_rel.keys())`. -/
def sortedChars (cr : PMap (Finset ℕ)) : List ℕ :=
  cr.keys.sort (· ≤ ·)

/-- The planner logic of `main`: with no parsed previous maximum
(`if last_char:` is also false for `0`) a full initialization; otherwise
a no-op when `last_char >= max_char_id and not data_changed`, else an
incremental run whose `new_char_ids` is `range(last_char+1, max_char_id+1)`
and whose index statements cover only the new ids present in
`chara_rel`. -/
def plan (lastChar : Option ℕ) (changed : Bool) (cr : PMap (Finset ℕ))
    (maxId : ℕ) : PlanDecision :=
  match lastChar with
  | none => PlanDecision.full (sortedChars cr)
  | some n =>
    if n = 0 then PlanDecision.full (sortedChars cr)
    else if maxId ≤ n ∧ changed = false then PlanDecision.noop
    else
      PlanDecision.incremental (List.range' (n + 1) (maxId - n))
        ((List.range' (n + 1) (maxId - n)).filter (fun c => decide (c ∈ cr.keys)))

/-- The composition `main` actually runs: the Change Detector's verdict
on the (possibly missing or malformed) snapshot feeds the planner. -/
def mainPlan (lastChar : Option ℕ) (snapshot : Option (PMap ℤ × PMap (Finset ℕ)))
    (curRp : PMap ℤ) (curCr : PMap (Finset ℕ)) (maxId : ℕ) : PlanDecision :=
  plan lastChar (check_for_data_changes curRp curCr snapshot) curCr maxId

/-- The worked weight mapping of the spec: categories 1 ↦ 10, 2 ↦ 5. -/
def rpW : PMap ℤ :=
  { keys := {1, 2}, val := fun k => if k = 1 then 10 else if k = 2 then 5 else 0 }

/-- The worked entity set of the spec: 1001 ↦ {1}, 1002 ↦ {1},
1003 ↦ {2}. -/
def crW : PMap (Finset ℕ) :=
  { keys := {1001, 1002, 1003},
    val := fun k =>
      if k = 1001 then {1} else if k = 1002 then {1} else if k = 1003 then {2} else ∅ }

/-- Weight mapping knowing only category 1: categories 2 and 99 have no
weight. -/
def rpX : PMap ℤ :=
  { keys := {1}, val := fun _ => 10 }

/-- Entity set where 1001 references the weightless category 99 that no
other entity shares. -/
def crX : PMap (Finset ℕ) :=
  { keys := {1001, 1002, 1003},
    val := fun k =>
      if k = 1001 then {1, 99} else if k = 1002 then {1} else if k = 1003 then {2} else ∅ }

/-- Entity set with a gap: ids 1001 and 1003 only. -/
def crGap : PMap (Finset ℕ) :=
  { keys := {1001, 1003},
    val := fun k => if k = 1001 then {1} else if k = 1003 then {1} else ∅ }

lemma sumPoints_eq_some (rp : PMap ℤ) (s : Finset ℕ)
    (h : ∀ rt ∈ s, (rp.get? rt).isSome = true) :
    sumPoints rp s = some (∑ rt ∈ s, (rp.get? rt).getD 0) :=
  if_pos h

lemma sumPoints_eq_none_iff (rp : PMap ℤ) (s : Finset ℕ) :
    sumPoints rp s = none ↔ ∃ rt ∈ s, rp.get? rt = none := by
  unfold sumPoints
  by_cases h : ∀ rt ∈ s, (rp.get? rt).isSome = true
  · rw [if_pos h]
    constructor
    · intro h'
      exact absurd h' (by simp)
    · rintro ⟨rt, hrt, hnone⟩
      have := h rt hrt
      rw [hnone] at this
      exact absurd this (by simp)
  · rw [if_neg h]
    push_neg at h
    obtain ⟨rt, hrt, hnone⟩ := h
    exact iff_of_true rfl ⟨rt, hrt, Option.not_isSome_iff_eq_none.mp hnone⟩

lemma crGet_of_not_mem (cr : PMap (Finset ℕ)) (a : ℕ) (h : a ∉ cr.keys) :
    crGet cr a = ∅ := by
  unfold crGet PMap.get?
  rw [if_neg h]
  rfl

lemma sumPoints_empty (rp : PMap ℤ) : sumPoints rp ∅ = some 0 := by
  unfold sumPoints
  rw [if_pos (by simp)]
  simp

lemma get_aff3_of_inter_empty (rp : PMap ℤ) (cr : PMap (Finset ℕ)) (a b c : ℕ)
    (h : crGet cr a ∩ crGet cr b = ∅) : get_aff3 rp cr a b c = some 0 := by
  unfold get_aff3
  by_cases hab : a = b
  · rw [if_pos hab]
  · rw [if_neg hab, if_neg (by rw [h]; exact Finset.not_nonempty_empty)]

lemma compute_eq_some (rp : PMap ℤ) (cr : PMap (Finset ℕ)) (maxId : ℕ)
    (res : ℕ × ℕ × ℕ → Option AffinityEntry)
    (h : compute_affinity_scores rp cr maxId = some res) :
    ¬ computeAborts rp cr ∧ res = buildResult rp cr maxId := by
  unfold compute_affinity_scores at h
  by_cases hab : computeAborts rp cr
  · rw [if_pos hab] at h
    exact absurd h (by simp)
  · rw [if_neg hab] at h
    exact ⟨hab, (Option.some.inj h).symm⟩

lemma noAbort_weights (rp : PMap ℤ) (cr : PMap (Finset ℕ))
    (hnab : ¬ computeAborts rp cr) (a b : ℕ)
    (ha : a ∈ cr.keys) (hb : b ∈ cr.keys) (hab : a ≠ b) :
    ∀ rt ∈ crGet cr a ∩ crGet cr b, (rp.get? rt).isSome = true := by
  by_contra hc
  push_neg at hc
  obtain ⟨rt, hrt, hnone⟩ := hc
  apply hnab
  left
  refine ⟨a, ha, b, hb, hab, ⟨rt, hrt⟩, ?_⟩
  exact (sumPoints_eq_none_iff rp _).mpr ⟨rt, hrt, Option.not_isSome_iff_eq_none.mp hnone⟩

lemma aff2_agree (rp : PMap ℤ) (cr : PMap (Finset ℕ)) (a b : ℕ)
    (ha : a ∈ cr.keys) (hb : b ∈ cr.keys) (hab : a ≠ b)
    (hw : ∀ rt ∈ crGet cr a ∩ crGet cr b, (rp.get? rt).isSome = true) :
    get_aff2 rp cr a b = some (aff2Lookup rp cr a b) := by
  unfold get_aff2 aff2Lookup aff2Entry
  rw [if_neg hab]
  by_cases hne : (crGet cr a ∩ crGet cr b).Nonempty
  · rw [if_pos hne, if_pos ⟨ha, hb, hab, hne⟩, sumPoints_eq_some rp _ hw]
    by_cases hz : (∑ rt ∈ crGet cr a ∩ crGet cr b, (rp.get? rt).getD 0) = 0
    · simp [hz]
    · simp [hz]
  · rw [if_neg hne, if_neg (fun h => hne h.2.2.2)]
    rfl

lemma aff3_agree (rp : PMap ℤ) (cr : PMap (Finset ℕ)) (a b c : ℕ)
    (ha : a ∈ cr.keys) (hb : b ∈ cr.keys) (hc : c ∈ cr.keys)
    (hab : a ≠ b) (hcb : c ≠ b)
    (hw : ∀ rt ∈ crGet cr a ∩ crGet cr b, (rp.get? rt).isSome = true) :
    get_aff3 rp cr a b c = some (aff3Lookup rp cr a b c) := by
  unfold get_aff3 aff3Lookup aff3Entry
  rw [if_neg hab]
  by_cases hne : (crGet cr a ∩ crGet cr b).Nonempty
  · rw [if_pos hne,
      if_pos (show a ∈ cr.keys ∧ b ∈ cr.keys ∧ c ∈ cr.keys ∧ a ≠ b ∧
        (crGet cr a ∩ crGet cr b).Nonempty ∧ c ≠ b from ⟨ha, hb, hc, hab, hne, hcb⟩)]
    by_cases hac : a = c
    · rw [if_pos hac]
      rfl
    · rw [if_neg hac]
      have hw' : ∀ rt ∈ (crGet cr a ∩ crGet cr b) ∩ crGet cr c,
          (rp.get? rt).isSome = true :=
        fun rt hrt => hw rt (Finset.mem_of_mem_inter_left hrt)
      rw [sumPoints_eq_some rp _ hw']
      rfl
  · rw [if_neg hne, if_neg (fun h => hne h.2.2.2.2.1)]
    rfl

/-- C8: for all entities `a` and `b`, `aff2(a, b) = aff2(b, a)` — the
pairwise score of the Relation Score Model is symmetric in its two
arguments (including the error path of a missing weight). -/
theorem aff2_symm (rp : PMap ℤ) (cr : PMap (Finset ℕ)) (a b : ℕ) :
    get_aff2 rp cr a b = get_aff2 rp cr b a := by
  unfold get_aff2
  by_cases hab : a = b
  · rw [if_pos hab, if_pos hab.symm]
  · rw [if_neg hab, if_neg (Ne.symm hab), Finset.inter_comm (crGet cr a) (crGet cr b)]

/-- C7: whenever the intersection of the relation-category sets of `a`
and `b` is empty, `aff3(a, b, c)` is `0`, for every `c`. -/
theorem aff3_zero_of_pair_empty (rp : PMap ℤ) (cr : PMap (Finset ℕ)) (a b c : ℕ)
    (h : crGet cr a ∩ crGet cr b = ∅) : get_aff3 rp cr a b c = some 0 :=
  get_aff3_of_inter_empty rp cr a b c h

/-- Witness for C7 at the spec's worked data: entities 1001 and 1003
share no category, so the triple score with third argument 1002 is 0. -/
theorem aff3_zero_of_pair_empty_witness :
    crGet crW 1001 ∩ crGet crW 1003 = ∅ ∧ get_aff3 rpW crW 1001 1003 1002 = some 0 :=
  ⟨by decide, aff3_zero_of_pair_empty rpW crW 1001 1003 1002 (by decide)⟩

/-- C5 is refuted by the code: `chara_rel` is a `defaultdict(set)`, so a
query of the reference score functions with an id absent from the entity
set silently returns the default value 0 instead of signalling an error
(id 9999 is not in the working set). -/
theorem absent_id_counterexample :
    9999 ∉ crW.keys ∧ get_aff2 rpW crW 9999 1001 = some 0 ∧
    get_aff3 rpW crW 9999 1001 1002 = some 0 := by
  decide

/-- C5 amended: a query of `aff2` with either argument absent from the
entity set, or of `aff3` with any of its three arguments absent, returns
the default value 0 (the absent entity behaves as having no categories);
the cached lookups of the builder likewise default to 0; no error is
signalled. -/
theorem absent_id_defaults_zero (rp : PMap ℤ) (cr : PMap (Finset ℕ)) (a b c : ℕ) :
    ((a ∉ cr.keys ∨ b ∉ cr.keys) →
      get_aff2 rp cr a b = some 0 ∧ aff2Lookup rp cr a b = 0) ∧
    ((a ∉ cr.keys ∨ b ∉ cr.keys ∨ c ∉ cr.keys) →
      get_aff3 rp cr a b c = some 0 ∧ aff3Lookup rp cr a b c = 0) := by
  constructor
  · intro h
    have hempty : crGet cr a ∩ crGet cr b = ∅ := by
      rcases h with h | h
      · rw [crGet_of_not_mem cr a h, Finset.empty_inter]
      · rw [crGet_of_not_mem cr b h, Finset.inter_empty]
    constructor
    · unfold get_aff2
      by_cases hab : a = b
      · rw [if_pos hab]
      · rw [if_neg hab, if_neg (by rw [hempty]; exact Finset.not_nonempty_empty)]
    · unfold aff2Lookup aff2Entry
      rw [if_neg (fun hcon => by
        rcases h with h | h
        · exact h hcon.1
        · exact h hcon.2.1)]
      rfl
  · intro h
    have hlook : aff3Lookup rp cr a b c = 0 := by
      unfold aff3Lookup aff3Entry
      rw [if_neg (fun hcon => by
        rcases h with h | h | h
        · exact h hcon.1
        · exact h hcon.2.1
        · exact h hcon.2.2.1)]
      rfl
    refine ⟨?_, hlook⟩
    by_cases hab : a ∉ cr.keys ∨ b ∉ cr.keys
    · have hempty : crGet cr a ∩ crGet cr b = ∅ := by
        rcases hab with h' | h'
        · rw [crGet_of_not_mem cr a h', Finset.empty_inter]
        · rw [crGet_of_not_mem cr b h', Finset.inter_empty]
      exact get_aff3_of_inter_empty rp cr a b c hempty
    · have hcabs : c ∉ cr.keys := by tauto
      unfold get_aff3
      by_cases habeq : a = b
      · rw [if_pos habeq]
      · rw [if_neg habeq]
        by_cases hne : (crGet cr a ∩ crGet cr b).Nonempty
        · rw [if_pos hne]
          by_cases hac : a = c
          · rw [if_pos hac]
          · rw [if_neg hac, crGet_of_not_mem cr c hcabs, Finset.inter_empty]
            exact sumPoints_empty rp
        · rw [if_neg hne]

/-- Witness for the amended C5: an `aff2` query with absent first
argument 8888 returns 0, and an `aff3` query whose only absent argument
is the third one, 9998, also returns 0. -/
theorem absent_id_defaults_zero_witness :
    ((8888 ∉ crW.keys ∨ 1001 ∉ crW.keys) ∧
      get_aff2 rpW crW 8888 1001 = some 0 ∧ aff2Lookup rpW crW 8888 1001 = 0) ∧
    ((1001 ∉ crW.keys ∨ 1002 ∉ crW.keys ∨ 9998 ∉ crW.keys) ∧
      get_aff3 rpW crW 1001 1002 9998 = some 0 ∧ aff3Lookup rpW crW 1001 1002 9998 = 0) :=
  ⟨⟨Or.inl (by decide),
    (absent_id_defaults_zero rpW crW 8888 1001 1002).1 (Or.inl (by decide))⟩,
   ⟨Or.inr (Or.inr (by decide)),
    (absent_id_defaults_zero rpW crW 1001 1002 9998).2 (Or.inr (Or.inr (by decide)))⟩⟩

/-- C9: the Change Detector returns `true` exactly when the weight
mapping differs from the snapshot, some snapshot entity is absent from
current data, or some snapshot entity has a different category set; with
no (readable) previous snapshot it returns `false`. -/
theorem change_detector_spec (curRp prevRp : PMap ℤ)
    (curCr prevCr : PMap (Finset ℕ)) :
    check_for_data_changes curRp curCr none = false ∧
    (check_for_data_changes curRp curCr (some (prevRp, prevCr)) = true ↔
      (¬ PMap.eqv prevRp curRp ∨
       (∃ cid ∈ prevCr.keys, cid ∉ curCr.keys) ∨
       (∃ cid ∈ prevCr.keys, cid ∈ curCr.keys ∧ prevCr.val cid ≠ curCr.val cid))) := by
  refine ⟨rfl, ?_⟩
  show (if PMap.eqv prevRp curRp then
      decide (∃ cid ∈ prevCr.keys, cid ∉ curCr.keys ∨ prevCr.val cid ≠ curCr.val cid)
    else true) = true ↔ _
  by_cases heqv : PMap.eqv prevRp curRp
  · rw [if_pos heqv, decide_eq_true_iff]
    constructor
    · rintro ⟨cid, hcid, hor⟩
      by_cases hmem : cid ∈ curCr.keys
      · rcases hor with h1 | h2
        · exact absurd hmem h1
        · exact Or.inr (Or.inr ⟨cid, hcid, hmem, h2⟩)
      · exact Or.inr (Or.inl ⟨cid, hcid, hmem⟩)
    · rintro (h | ⟨cid, hcid, habs⟩ | ⟨cid, hcid, hmem, hne⟩)
      · exact absurd heqv h
      · exact ⟨cid, hcid, Or.inl habs⟩
      · exact ⟨cid, hcid, Or.inr hne⟩
  · rw [if_neg heqv]
    exact iff_of_true rfl (Or.inl heqv)

/-- C4 is refuted by the code: entity 1001 references category 99 which
has no weight in `rpX`, yet `compute_affinity_scores` completes without
error because no other entity shares category 99, so its weight is never
summed. -/
theorem missing_weight_counterexample :
    1001 ∈ crX.keys ∧ 99 ∈ crGet crX 1001 ∧ rpX.get? 99 = none ∧
    (compute_affinity_scores rpX crX 1003).isSome = true := by
  decide

/-- C4 amended: the affinity computation aborts with an error (and no
table is produced) exactly when some relation category with no weight
lies in the intersection of the category sets of two distinct entities
of the working set; a missing weight referenced by only one entity does
not abort the run. -/
theorem missing_weight_abort_iff (rp : PMap ℤ) (cr : PMap (Finset ℕ)) (maxId : ℕ) :
    compute_affinity_scores rp cr maxId = none ↔
      ∃ a ∈ cr.keys, ∃ b ∈ cr.keys, a ≠ b ∧
        ∃ rt ∈ crGet cr a ∩ crGet cr b, rp.get? rt = none := by
  unfold compute_affinity_scores
  by_cases hab : computeAborts rp cr
  · rw [if_pos hab]
    refine iff_of_true rfl ?_
    rcases hab with ⟨a, ha, b, hb, hne, _, hsum⟩ | ⟨a, ha, b, hb, c, hc, hne, _, _, _, hsum⟩
    · obtain ⟨rt, hrt, hnone⟩ := (sumPoints_eq_none_iff rp _).mp hsum
      exact ⟨a, ha, b, hb, hne, rt, hrt, hnone⟩
    · obtain ⟨rt, hrt, hnone⟩ := (sumPoints_eq_none_iff rp _).mp hsum
      exact ⟨a, ha, b, hb, hne, rt, Finset.mem_of_mem_inter_left hrt, hnone⟩
  · rw [if_neg hab]
    refine iff_of_false (by simp) ?_
    rintro ⟨a, ha, b, hb, hne, rt, hrt, hnone⟩
    exact hab (Or.inl ⟨a, ha, b, hb, hne, ⟨rt, hrt⟩,
      (sumPoints_eq_none_iff rp _).mpr ⟨rt, hrt, hnone⟩⟩)

/-- C6 is refuted by the code: with a prior script recording maximum
1003 and a missing-or-malformed snapshot (the bare `except` path of
`check_for_data_changes` returns `False`), the planner decides a no-op,
not a full initialization. -/
theorem snapshot_fallback_counterexample :
    mainPlan (some 1003) none rpW crW 1003 = PlanDecision.noop ∧
    mainPlan (some 1003) none rpW crW 1003 ≠ PlanDecision.full (sortedChars crW) := by
  decide

/-- C6 amended: an unreadable or malformed previous artifact never fails
the run, but the two artifacts degrade differently: a prior script with
no parseable maximum yields a full initialization, while a malformed
snapshot only makes the Change Detector report "no change", after which
the planner follows the prior script's baseline (so it may no-op or go
incremental rather than fully initialize). -/
theorem snapshot_fallback (curRp : PMap ℤ) (curCr : PMap (Finset ℕ)) (maxId : ℕ)
    (snapshot : Option (PMap ℤ × PMap (Finset ℕ))) :
    mainPlan none snapshot curRp curCr maxId = PlanDecision.full (sortedChars curCr) ∧
    (∀ n, mainPlan (some n) none curRp curCr maxId = plan (some n) false curCr maxId) ∧
    check_for_data_changes curRp curCr none = false :=
  ⟨rfl, fun _ => rfl, rfl⟩

/-- C3 is refuted by the code on two points, shown on the entity set
{1001, 1003}: with no change and previous max 1001, index maintenance is
emitted for [1003] only, not for the whole new-id range [1002, 1003];
and with a detected change and previous max equal to the current max,
the decision stays incremental with an empty index list — not a full
re-index, although the working set has 2 characters. -/
theorem planner_counterexample :
    plan (some 1001) false crGap 1003 =
      PlanDecision.incremental [1002, 1003] [1003] ∧
    plan (some 1003) true crGap 1003 = PlanDecision.incremental [] [] ∧
    1002 ∉ crGap.keys ∧ crGap.keys.card = 2 := by
  decide

/-- C3 amended: for a previous maximum `n > 0`, the planner decides a
no-op exactly when no change was detected and the current maximum does
not exceed `n`; in every other case (growth or detected change) it
decides incremental, the new-id range being exactly `(n, maxId]` and the
emitted index maintenance covering exactly the new ids present in the
entity set — a detected change never causes a no-op, but it does not
trigger a full re-index either. -/
theorem planner_spec (cr : PMap (Finset ℕ)) (n maxId : ℕ) (h : 0 < n) :
    (∀ changed, plan (some n) changed cr maxId = PlanDecision.noop ↔
        (changed = false ∧ maxId ≤ n)) ∧
    (∀ changed, (changed = true ∨ n < maxId) →
        ∃ ids idx, plan (some n) changed cr maxId = PlanDecision.incremental ids idx) ∧
    (∀ changed ids idx,
        plan (some n) changed cr maxId = PlanDecision.incremental ids idx →
        (∀ c, c ∈ ids ↔ (n < c ∧ c ≤ maxId)) ∧
        (∀ c, c ∈ idx ↔ (n < c ∧ c ≤ maxId ∧ c ∈ cr.keys))) := by
  have hn0 : n ≠ 0 := Nat.pos_iff_ne_zero.mp h
  have hplan : ∀ changed : Bool, plan (some n) changed cr maxId =
      if maxId ≤ n ∧ changed = false then PlanDecision.noop
      else
        PlanDecision.incremental (List.range' (n + 1) (maxId - n))
          ((List.range' (n + 1) (maxId - n)).filter (fun c => decide (c ∈ cr.keys))) := by
    intro changed
    show (if n = 0 then PlanDecision.full (sortedChars cr) else _) = _
    rw [if_neg hn0]
  have hmem : ∀ c, c ∈ List.range' (n + 1) (maxId - n) ↔ (n < c ∧ c ≤ maxId) := by
    intro c
    rw [List.mem_range'_1]
    omega
  refine ⟨?_, ?_, ?_⟩
  · intro changed
    rw [hplan changed]
    by_cases hcond : maxId ≤ n ∧ changed = false
    · rw [if_pos hcond]
      exact iff_of_true rfl ⟨hcond.2, hcond.1⟩
    · rw [if_neg hcond]
      exact iff_of_false (by simp) (fun hc => hcond ⟨hc.2, hc.1⟩)
  · intro changed hgrow
    rw [hplan changed]
    rw [if_neg (by
      rintro ⟨hle, hfalse⟩
      rcases hgrow with hg | hg
      · rw [hg] at hfalse
        exact absurd hfalse (by simp)
      · omega)]
    exact ⟨_, _, rfl⟩
  · intro changed ids idx heq
    rw [hplan changed] at heq
    by_cases hcond : maxId ≤ n ∧ changed = false
    · rw [if_pos hcond] at heq
      exact absurd heq (by simp)
    · rw [if_neg hcond] at heq
      obtain ⟨hids, hidx⟩ := PlanDecision.incremental.inj heq.symm
      constructor
      · intro c
        rw [hids]
        exact hmem c
      · intro c
        rw [hidx, List.mem_filter, decide_eq_true_iff, hmem c]
        tauto

/-- Witness for the amended C3: with previous max 1001 and current max
1001 and no change, the planner no-ops. -/
theorem planner_spec_witness :
    0 < 1001 ∧
    (plan (some 1001) false crW 1001 = PlanDecision.noop ↔
      (false = false ∧ 1001 ≤ 1001)) :=
  ⟨by decide, (planner_spec crW 1001 1001 (by decide)).1 false⟩

/-- C10: for the queries the builder performs — `aff2` on distinct pairs
of working-set ids, `aff3` on triples with `a ≠ b` and `c ≠ b` — the
cached lookups with default 0 agree with the direct reference functions
of `affinity_test.py`, despite the caches omitting zero and
empty-intersection entries (the weight hypothesis holds in any run that
did not abort). -/
theorem cache_refines_reference (rp : PMap ℤ) (cr : PMap (Finset ℕ)) (a b c : ℕ)
    (ha : a ∈ cr.keys) (hb : b ∈ cr.keys) (hc : c ∈ cr.keys)
    (hab : a ≠ b) (hcb : c ≠ b)
    (hw : ∀ rt ∈ crGet cr a ∩ crGet cr b, (rp.get? rt).isSome = true) :
    get_aff2 rp cr a b = some (aff2Lookup rp cr a b) ∧
    get_aff3 rp cr a b c = some (aff3Lookup rp cr a b c) :=
  ⟨aff2_agree rp cr a b ha hb hab hw, aff3_agree rp cr a b c ha hb hc hab hcb hw⟩

/-- Witness for C10 at the spec's worked data, on the query pattern
`(candidate, main, other) = (1002, 1001, 1003)`. -/
theorem cache_refines_reference_witness :
    (1002 ∈ crW.keys ∧ 1001 ∈ crW.keys ∧ 1003 ∈ crW.keys ∧
      (1002 : ℕ) ≠ 1001 ∧ (1003 : ℕ) ≠ 1001) ∧
    (get_aff2 rpW crW 1002 1001 = some (aff2Lookup rpW crW 1002 1001) ∧
     get_aff3 rpW crW 1002 1001 1003 = some (aff3Lookup rpW crW 1002 1001 1003)) :=
  ⟨by decide, cache_refines_reference rpW crW 1002 1001 1003 (by decide) (by decide)
    (by decide) (by decide) (by decide) (by decide)⟩

/-- C2: in any completed run, the table contains a key `(m, l, r)` if
and only if all three ids belong to the entity set with `l ≠ m`,
`r ≠ m`, `r ≠ l`; every entry's `base_affinity` is
`aff2(m, l) + aff3(m, l, r)`; and an entity set with fewer than three
members yields an empty table. -/
theorem table_spec (rp : PMap ℤ) (cr : PMap (Finset ℕ)) (maxId : ℕ)
    (res : ℕ × ℕ × ℕ → Option AffinityEntry)
    (hrun : compute_affinity_scores rp cr maxId = some res) :
    (∀ m l r, res (m, l, r) ≠ none ↔
        (m ∈ cr.keys ∧ l ∈ cr.keys ∧ r ∈ cr.keys ∧ l ≠ m ∧ r ≠ m ∧ r ≠ l)) ∧
    (∀ m l r e, res (m, l, r) = some e →
        oadd (get_aff2 rp cr m l) (get_aff3 rp cr m l r) = some e.base_affinity) ∧
    (cr.keys.card < 3 → ∀ t, res t = none) := by
  obtain ⟨hnab, hres⟩ := compute_eq_some rp cr maxId res hrun
  subst hres
  have hguard : ∀ m l r : ℕ, buildResult rp cr maxId (m, l, r) =
      if m ∈ cr.keys ∧ l ∈ cr.keys ∧ r ∈ cr.keys ∧ l ≠ m ∧ r ≠ m ∧ r ≠ l then
        some (buildEntry rp cr maxId m l r)
      else none := fun m l r => rfl
  refine ⟨?_, ?_, ?_⟩
  · intro m l r
    rw [hguard m l r]
    by_cases hcond : m ∈ cr.keys ∧ l ∈ cr.keys ∧ r ∈ cr.keys ∧ l ≠ m ∧ r ≠ m ∧ r ≠ l
    · rw [if_pos hcond]
      exact iff_of_true (by simp) hcond
    · rw [if_neg hcond]
      exact iff_of_false (by simp) hcond
  · intro m l r e hent
    rw [hguard m l r] at hent
    by_cases hcond : m ∈ cr.keys ∧ l ∈ cr.keys ∧ r ∈ cr.keys ∧ l ≠ m ∧ r ≠ m ∧ r ≠ l
    · rw [if_pos hcond] at hent
      obtain ⟨hm, hl, hr, hlm, hrm, hrl⟩ := hcond
      have hml : m ≠ l := Ne.symm hlm
      have hw := noAbort_weights rp cr hnab m l hm hl hml
      rw [aff2_agree rp cr m l hm hl hml hw,
        aff3_agree rp cr m l r hm hl hr hml hrl hw]
      rw [← Option.some.inj hent]
      rfl
    · rw [if_neg hcond] at hent
      exact absurd hent (by simp)
  · intro hcard t
    obtain ⟨m, l, r⟩ := t
    rw [hguard m l r]
    by_cases hcond : m ∈ cr.keys ∧ l ∈ cr.keys ∧ r ∈ cr.keys ∧ l ≠ m ∧ r ≠ m ∧ r ≠ l
    · exfalso
      obtain ⟨hm, hl, hr, hlm, hrm, hrl⟩ := hcond
      have hsub : ({m, l, r} : Finset ℕ) ⊆ cr.keys := by
        intro x hx
        rcases Finset.mem_insert.mp hx with rfl | hx'
        · exact hm
        rcases Finset.mem_insert.mp hx' with rfl | hx''
        · exact hl
        rw [Finset.mem_singleton.mp hx'']
        exact hr
      have h3 : ({m, l, r} : Finset ℕ).card = 3 :=
        Finset.card_eq_three.mpr ⟨m, l, r, Ne.symm hlm, Ne.symm hrm, Ne.symm hrl, rfl⟩
      have := Finset.card_le_card hsub
      omega
    · rw [if_neg hcond]

/-- Witness for C2 at the spec's worked data: the valid triple
(1001, 1002, 1003) is present and the degenerate triple (1001, 1001, 1003)
is absent. -/
theorem table_spec_witness :
    buildResult rpW crW 1003 (1001, 1002, 1003) ≠ none ∧
    buildResult rpW crW 1003 (1001, 1001, 1003) = none := by
  have h := table_spec rpW crW 1003 (buildResult rpW crW 1003)
    (by unfold compute_affinity_scores; exact if_neg (by decide))
  refine ⟨(h.1 1001 1002 1003).mpr (by decide), ?_⟩
  by_contra hc
  exact absurd ((h.1 1001 1001 1003).mp hc) (by decide)

set_option maxRecDepth 8192 in
/-- C1: every entry of a completed run with maximum id `maxId ≥ 1001`
has a dense vector of exactly `maxId - 1001 + 1` slots; slot `i` stands
for candidate id `1001 + i`, is exactly 0 when that candidate is the
main character or has no category memberships, and otherwise equals
`aff2(candidate, main) + aff3(candidate, main, left) +
aff3(candidate, main, right)` of the reference score functions. -/
theorem dense_vector_spec (rp : PMap ℤ) (cr : PMap (Finset ℕ)) (maxId m l r : ℕ)
    (res : ℕ × ℕ × ℕ → Option AffinityEntry) (e : AffinityEntry)
    (hmax : 1001 ≤ maxId)
    (hrun : compute_affinity_scores rp cr maxId = some res)
    (hent : res (m, l, r) = some e) :
    e.affinity_scores.length = maxId - 1001 + 1 ∧
    ∀ i : ℕ, ∀ hi : i < e.affinity_scores.length,
      ((1001 + i = m ∨ (1001 + i) ∉ cr.keys) → e.affinity_scores.get ⟨i, hi⟩ = 0) ∧
      (1001 + i ≠ m → (1001 + i) ∈ cr.keys →
        some (e.affinity_scores.get ⟨i, hi⟩) =
          oadd (get_aff2 rp cr (1001 + i) m)
            (oadd (get_aff3 rp cr (1001 + i) m l) (get_aff3 rp cr (1001 + i) m r))) := by
  obtain ⟨hnab, hres⟩ := compute_eq_some rp cr maxId res hrun
  subst hres
  have hent' : (if m ∈ cr.keys ∧ l ∈ cr.keys ∧ r ∈ cr.keys ∧ l ≠ m ∧ r ≠ m ∧ r ≠ l then
      some (buildEntry rp cr maxId m l r) else none) = some e := hent
  by_cases hcond : m ∈ cr.keys ∧ l ∈ cr.keys ∧ r ∈ cr.keys ∧ l ≠ m ∧ r ≠ m ∧ r ≠ l
  · rw [if_pos hcond] at hent'
    obtain ⟨hm, hl, hr, hlm, hrm, hrl⟩ := hcond
    obtain rfl : buildEntry rp cr maxId m l r = e := Option.some.inj hent'
    constructor
    · show ((List.range (maxId + 1 - 1001)).map
        (fun i => slotScore rp cr m l r (1001 + i))).length = maxId - 1001 + 1
      rw [List.length_map, List.length_range]
      omega
    · intro i hi
      have hslot : (buildEntry rp cr maxId m l r).affinity_scores.get ⟨i, hi⟩ =
          slotScore rp cr m l r (1001 + i) := by
        show ((List.range (maxId + 1 - 1001)).map
          (fun i => slotScore rp cr m l r (1001 + i))).get ⟨i, hi⟩ = _
        rw [List.get_eq_getElem, List.getElem_map, List.getElem_range]
      rw [hslot]
      constructor
      · intro hz
        unfold slotScore
        rw [if_pos (Or.symm hz)]
      · intro hne hmem
        unfold slotScore
        rw [if_neg (by push_neg; exact ⟨hmem, hne⟩)]
        have hw := noAbort_weights rp cr hnab (1001 + i) m hmem hm hne
        rw [aff2_agree rp cr (1001 + i) m hmem hm hne hw,
          aff3_agree rp cr (1001 + i) m l hmem hm hl hne hlm hw,
          aff3_agree rp cr (1001 + i) m r hmem hm hr hne hrm hw]
        show some _ = some _
        rw [add_assoc]
  · rw [if_neg hcond] at hent'
    exact absurd hent' (by simp)

/-- Witness for C1 at the spec's worked data: the entry for triple
(1001, 1002, 1003) with maximum id 1003 has a 3-slot vector. -/
theorem dense_vector_spec_witness :
    (1001 : ℕ) ≤ 1003 ∧
    (buildEntry rpW crW 1003 1001 1002 1003).affinity_scores.length = 1003 - 1001 + 1 :=
  ⟨by decide,
    (dense_vector_spec rpW crW 1003 1001 1002 1003 (buildResult rpW crW 1003)
      (buildEntry rpW crW 1003 1001 1002 1003) (by decide)
      (by unfold compute_affinity_scores; exact if_neg (by decide))
      (by
        show (if (1001 : ℕ) ∈ crW.keys ∧ (1002 : ℕ) ∈ crW.keys ∧ (1003 : ℕ) ∈ crW.keys ∧
            (1002 : ℕ) ≠ 1001 ∧ (1003 : ℕ) ≠ 1001 ∧ (1003 : ℕ) ≠ 1002 then
          some (buildEntry rpW crW 1003 1001 1002 1003) else none) = _
        exact if_pos (by decide))).1⟩
